import Mathlib

/-!
Shallow embedding of the autocrap control interpretation engine
(src/autocrap/interpreter.rs and src/autocrap/config.rs).

Machine bytes (u8) are modelled as Nat with explicit `% 256` where the
source truncates; Rust f32 OSC arguments are modelled as exact rationals
(the source only compares them to 0 and divides small integers, where f32
and exact arithmetic agree on the facts stated here); fallible paths
(Option in Rust, panics in expand) are modelled with Option.
-/

set_option maxRecDepth 4000
set_option linter.unnecessarySeqFocus false

/-- MIDI message kind, as used by interpreter.rs (`MidiKind`). -/
inductive MidiKind where
  | cc
  | noteOnOff
deriving Repr, DecidableEq

/-- MIDI binding of one control (`MidiSpec`: channel, number, kind). -/
structure MidiSpec where
  channel : Nat
  num : Nat
  kind : MidiKind
deriving Repr, DecidableEq

/-- Behavior mode of an OnOff control (`OnOffMode`). -/
inductive OnOffMode where
  | raw
  | momentary
  | toggle
deriving Repr, DecidableEq

/-- Behavior mode of a Relative control (`RelativeMode`). -/
inductive RelativeMode where
  | raw
  | accumulate
deriving Repr, DecidableEq

/-- An OSC argument (`rosc::OscType`); the engine only ever constructs and
matches the `Float` variant, every other variant is collapsed into
`other`. Floats are modelled as exact rationals. -/
inductive OscType where
  | float (v : ℚ)
  | other
deriving Repr, DecidableEq

/-- An OSC message: address and argument list (`rosc::OscMessage`). -/
structure OscMessage where
  addr : String
  args : List OscType
deriving Repr, DecidableEq

/-- Bytes sent back to the USB controller (`CtrlResponse`). -/
structure CtrlResponse where
  data : List Nat
deriving Repr, DecidableEq

/-- An outgoing OSC message (`OscResponse`). -/
structure OscResponse where
  addr : String
  args : List OscType
deriving Repr, DecidableEq

/-- An outgoing MIDI message (`MidiResponse`). -/
structure MidiResponse where
  data : List Nat
deriving Repr, DecidableEq

/-- Combined response with three independently optional parts (`Response`). -/
structure Response where
  ctrl : Option CtrlResponse
  osc : Option OscResponse
  midi : Option MidiResponse
deriving Repr, DecidableEq

/-- `Response::new()`: the entirely empty response. -/
def Response.new : Response :=
  { ctrl := none, osc := none, midi := none }

/-- `float_to_7bit`: `(val.max(0.0).min(1.0) * 127.0).round() as u8`. -/
def float_to_7bit (val : ℚ) : Nat :=
  (round (min (max val 0) 1 * 127)).toNat

/-! ## OnOffLogic -/

/-- State of an OnOff control (`OnOffLogic`). -/
structure OnOffLogic where
  mode : OnOffMode
  ctrl_in_num : Option Nat
  ctrl_out_num : Option Nat
  midi : Option MidiSpec
  osc_addr : String
  state : Bool
deriving Repr, DecidableEq

/-- `OnOffLogic::update`: set the state (when `remember`) and build the full
response, or the empty response when remembering an unchanged state. -/
def OnOffLogic.update (self : OnOffLogic) (new_state remember : Bool) :
    OnOffLogic × Response :=
  let self' := if remember then { self with state := new_state } else self
  if remember && (new_state == self.state) then
    (self', Response.new)
  else
    let osc_resp := some { addr := self.osc_addr,
                           args := [OscType.float (if new_state then 1 else 0)] }
    let ctrl_resp := self.ctrl_out_num.map fun num =>
      { data := [num, if new_state then 0x7f else 0x00] }
    let midi_resp := self.midi.map fun midi =>
      match midi.kind with
      | MidiKind.cc =>
          { data := [0xb0 ||| midi.channel, midi.num,
                     if new_state then 0x7f else 0x00] }
      | MidiKind.noteOnOff =>
          if new_state then
            { data := [0x90 ||| midi.channel, midi.num, 0x7f] }
          else
            { data := [0x80 ||| midi.channel, midi.num, 0x00] }
    (self', { ctrl := ctrl_resp, osc := osc_resp, midi := midi_resp })

/-- `OnOffLogic::handle_ctrl`: hardware event dispatch by mode. -/
def OnOffLogic.handle_ctrl (self : OnOffLogic) (num val : Nat) :
    OnOffLogic × Option Response :=
  match self.ctrl_in_num with
  | none => (self, none)
  | some ctrl_in_num =>
    if num ≠ ctrl_in_num then (self, none)
    else
      let pressed := val ≠ 0x00
      let flags : Bool × Bool × Bool × Bool :=
        match self.mode with
        | OnOffMode.raw => (decide pressed, false, true, false)
        | OnOffMode.momentary => (decide pressed, true, true, true)
        | OnOffMode.toggle =>
            if pressed then (!self.state, true, true, true)
            else (self.state, false, false, true)
      let new_state := flags.1
      let send_ctrl := flags.2.1
      let send_osc_midi := flags.2.2.1
      let remember := flags.2.2.2
      let u := self.update new_state remember
      let r1 := if send_ctrl then u.2 else { u.2 with ctrl := none }
      let r2 := if send_osc_midi then r1 else { r1 with osc := none, midi := none }
      (u.1, some r2)

/-- `OnOffLogic::handle_osc`: inbound OSC updates state, emits only the
hardware-feedback part; requires a configured output number. -/
def OnOffLogic.handle_osc (self : OnOffLogic) (msg : OscMessage) :
    OnOffLogic × Option Response :=
  match self.ctrl_out_num with
  | none => (self, none)
  | some _ =>
    if msg.addr ≠ self.osc_addr then (self, none)
    else
      match msg.args with
      | OscType.float val :: _ =>
          let u := self.update (decide (val ≠ 0)) true
          (u.1, some { Response.new with ctrl := u.2.ctrl })
      | _ => (self, none)

/-- `OnOffLogic::handle_midi`: inbound MIDI updates state, emits only the
hardware-feedback part; requires output number and MIDI spec. -/
def OnOffLogic.handle_midi (self : OnOffLogic) (msg : List Nat) :
    OnOffLogic × Option Response :=
  match self.ctrl_out_num with
  | none => (self, none)
  | some _ =>
    match self.midi with
    | none => (self, none)
    | some midi_spec =>
      match msg with
      | [status_byte, data1, data2] =>
        let channel := status_byte &&& 0x0f
        let status := status_byte &&& 0xf0
        if channel ≠ midi_spec.channel then (self, none)
        else
          let on_opt : Option Bool :=
            match midi_spec.kind with
            | MidiKind.cc =>
                if status ≠ 0xb0 ∨ data1 ≠ midi_spec.num then none
                else some (decide (0 < data2))
            | MidiKind.noteOnOff =>
                if (status ≠ 0x90 ∧ status ≠ 0x80) ∨ data1 ≠ midi_spec.num then
                  none
                else some (status == 0x90 && decide (0 < data2))
          match on_opt with
          | none => (self, none)
          | some is_on =>
              let u := self.update is_on true
              (u.1, some { Response.new with ctrl := u.2.ctrl })
      | _ => (self, none)

/-! ## EightBitLogic -/

/-- State of an EightBit control (`EightBitLogic`); `state` holds the two
most recent raw bytes `[hi, lo]`. -/
structure EightBitLogic where
  ctrl_in_hi_num : Nat
  ctrl_in_lo_num : Nat
  midi : Option MidiSpec
  osc_addr : String
  state : Nat × Nat
deriving Repr, DecidableEq

/-- `EightBitLogic::handle_ctrl`: a hi event stores slot 0 and yields the
empty response; a lo event stores slot 1 and emits the composite value.
`state[0] << 1` on u8 truncates, hence the `% 256`. -/
def EightBitLogic.handle_ctrl (self : EightBitLogic) (num val : Nat) :
    EightBitLogic × Option Response :=
  if num = self.ctrl_in_hi_num then
    ({ self with state := (val, self.state.2) }, some Response.new)
  else if num = self.ctrl_in_lo_num then
    let self' := { self with state := (self.state.1, val) }
    let val8 : Nat := ((self'.state.1 * 2) % 256) ||| (if self'.state.2 ≠ 0 then 1 else 0)
    let osc_resp := some { addr := self'.osc_addr,
                           args := [OscType.float ((val8 : ℚ) / 255)] }
    let midi_resp := self'.midi.bind fun midi =>
      match midi.kind with
      | MidiKind.cc =>
          some { data := [0xb0 ||| midi.channel, midi.num, val8 >>> 1] }
      | MidiKind.noteOnOff => none
    (self', some { ctrl := none, osc := osc_resp, midi := midi_resp })
  else
    (self, none)

/-- `EightBitLogic::handle_osc`: not implemented, declines. -/
def EightBitLogic.handle_osc (self : EightBitLogic) (_msg : OscMessage) :
    EightBitLogic × Option Response :=
  (self, none)

/-- `EightBitLogic::handle_midi`: not implemented, declines. -/
def EightBitLogic.handle_midi (self : EightBitLogic) (_msg : List Nat) :
    EightBitLogic × Option Response :=
  (self, none)

/-! ## RelativeLogic -/

/-- State of a Relative control (`RelativeLogic`). -/
structure RelativeLogic where
  mode : RelativeMode
  ctrl_in_num : Option Nat
  ctrl_out_num : Option Nat
  midi : Option MidiSpec
  osc_addr : String
  state : Nat
deriving Repr, DecidableEq

/-- `RelativeLogic::encoder_led_val`: quantized LED segment. -/
def RelativeLogic.encoder_led_val (val : Nat) : Nat :=
  if val < 7 then 0 else ((val - 7) / 11) * 11 + 7

/-- `RelativeLogic::update`: store the new state; empty response when
unchanged, else OSC + MIDI always, hardware feedback only when the LED
segment changed. -/
def RelativeLogic.update (self : RelativeLogic) (new_state : Nat) :
    RelativeLogic × Response :=
  let new_led := RelativeLogic.encoder_led_val new_state
  let old_led := RelativeLogic.encoder_led_val self.state
  let self' := { self with state := new_state }
  if new_state = self.state then (self', Response.new)
  else
    let ctrl_resp :=
      if new_led ≠ old_led then
        self'.ctrl_out_num.map fun num => { data := [num, new_led] }
      else none
    let osc_resp := some { addr := self'.osc_addr,
                           args := [OscType.float ((new_state : ℚ) / 127)] }
    let midi_resp := self'.midi.bind fun midi =>
      match midi.kind with
      | MidiKind.cc =>
          some { data := [0xb0 ||| midi.channel, midi.num, new_state] }
      | MidiKind.noteOnOff => none
    (self', { ctrl := ctrl_resp, osc := osc_resp, midi := midi_resp })

/-- Reinterpret a byte as Rust i8 (`val as i8`). -/
def toI8 (b : Nat) : Int :=
  if b < 128 then (b : Int) else (b : Int) - 256

/-- Rust `i8::wrapping_add`. -/
def i8WrappingAdd (x y : Int) : Int :=
  (x + y + 128) % 256 - 128

/-- The signed delta of a relative hardware byte:
`if val < 0x40 { val as i8 } else { (val as i8).wrapping_add(i8::MIN) }`. -/
def relDelta (val : Nat) : Int :=
  if val < 0x40 then toI8 val else i8WrappingAdd (toI8 val) (-128)

/-- Rust `u8::saturating_add_signed`. -/
def satAddSigned (s : Nat) (d : Int) : Nat :=
  let t := (s : Int) + d
  if t < 0 then 0 else if 255 < t then 255 else t.toNat

/-- `RelativeLogic::handle_ctrl`: decode the signed delta; Raw mode emits
the delta over OSC only, Accumulate clamps and feeds `update`. -/
def RelativeLogic.handle_ctrl (self : RelativeLogic) (num val : Nat) :
    RelativeLogic × Option Response :=
  match self.ctrl_in_num with
  | none => (self, none)
  | some ctrl_in_num =>
    if num ≠ ctrl_in_num then (self, none)
    else
      let delta := relDelta val
      match self.mode with
      | RelativeMode.raw =>
          (self, some { ctrl := none,
                        osc := some { addr := self.osc_addr,
                                      args := [OscType.float (delta : ℚ)] },
                        midi := none })
      | RelativeMode.accumulate =>
          let new_state := min (satAddSigned self.state delta) 127
          let u := self.update new_state
          (u.1, some u.2)

/-- `RelativeLogic::handle_osc`: inbound OSC feeds the update path, emits
only the hardware-feedback part; requires a configured output number. -/
def RelativeLogic.handle_osc (self : RelativeLogic) (msg : OscMessage) :
    RelativeLogic × Option Response :=
  match self.ctrl_out_num with
  | none => (self, none)
  | some _ =>
    if msg.addr ≠ self.osc_addr then (self, none)
    else
      match msg.args with
      | OscType.float val :: _ =>
          let new_state := float_to_7bit val
          let u := self.update new_state
          (u.1, some { Response.new with ctrl := u.2.ctrl })
      | _ => (self, none)

/-- `RelativeLogic::handle_midi`: a matching Control-Change message feeds
its data byte into the update path, emits only hardware feedback. -/
def RelativeLogic.handle_midi (self : RelativeLogic) (msg : List Nat) :
    RelativeLogic × Option Response :=
  match self.ctrl_out_num with
  | none => (self, none)
  | some _ =>
    match self.midi with
    | none => (self, none)
    | some midi_spec =>
      match msg with
      | [status_byte, data1, data2] =>
        if (status_byte &&& 0x0f) ≠ midi_spec.channel then (self, none)
        else if (status_byte &&& 0xf0) ≠ 0xb0 then (self, none)
        else if data1 ≠ midi_spec.num then (self, none)
        else
          let u := self.update data2
          (u.1, some { Response.new with ctrl := u.2.ctrl })
      | _ => (self, none)

/-! ## Interpretation engine (`Interpreter`) -/

/-- One control logic instance: the closed sum of the three `CtrlLogic`
implementations (the trait object `Box<dyn CtrlLogic>`). -/
inductive CtrlLogic where
  | onOff (l : OnOffLogic)
  | eightBit (l : EightBitLogic)
  | relative (l : RelativeLogic)
deriving Repr, DecidableEq

/-- Dynamic dispatch of `handle_ctrl` over the three implementations. -/
def CtrlLogic.handle_ctrl : CtrlLogic → Nat → Nat → CtrlLogic × Option Response
  | CtrlLogic.onOff l, num, val =>
      let u := l.handle_ctrl num val
      (CtrlLogic.onOff u.1, u.2)
  | CtrlLogic.eightBit l, num, val =>
      let u := l.handle_ctrl num val
      (CtrlLogic.eightBit u.1, u.2)
  | CtrlLogic.relative l, num, val =>
      let u := l.handle_ctrl num val
      (CtrlLogic.relative u.1, u.2)

/-- Dynamic dispatch of `handle_osc`. -/
def CtrlLogic.handle_osc : CtrlLogic → OscMessage → CtrlLogic × Option Response
  | CtrlLogic.onOff l, msg =>
      let u := l.handle_osc msg
      (CtrlLogic.onOff u.1, u.2)
  | CtrlLogic.eightBit l, msg =>
      let u := l.handle_osc msg
      (CtrlLogic.eightBit u.1, u.2)
  | CtrlLogic.relative l, msg =>
      let u := l.handle_osc msg
      (CtrlLogic.relative u.1, u.2)

/-- Dynamic dispatch of `handle_midi`. -/
def CtrlLogic.handle_midi : CtrlLogic → List Nat → CtrlLogic × Option Response
  | CtrlLogic.onOff l, msg =>
      let u := l.handle_midi msg
      (CtrlLogic.onOff u.1, u.2)
  | CtrlLogic.eightBit l, msg =>
      let u := l.handle_midi msg
      (CtrlLogic.eightBit u.1, u.2)
  | CtrlLogic.relative l, msg =>
      let u := l.handle_midi msg
      (CtrlLogic.relative u.1, u.2)

/-- The interpreter: the ordered list of control logic instances. -/
structure Interpreter where
  ctrls : List CtrlLogic
deriving Repr, DecidableEq

/-- The scan loop shared by the three entry points: try each instance in
order, return the first present response; instances after the responder
are not consulted. -/
def scanCtrls (f : CtrlLogic → CtrlLogic × Option Response) :
    List CtrlLogic → List CtrlLogic × Option Response
  | [] => ([], none)
  | c :: rest =>
    let u := f c
    match u.2 with
    | some resp => (u.1 :: rest, some resp)
    | none =>
      let v := scanCtrls f rest
      (u.1 :: v.1, v.2)

/-- `Interpreter::handle_ctrl`. -/
def Interpreter.handle_ctrl (self : Interpreter) (num val : Nat) :
    Interpreter × Option Response :=
  let u := scanCtrls (fun c => c.handle_ctrl num val) self.ctrls
  (⟨u.1⟩, u.2)

/-- `Interpreter::handle_osc`. -/
def Interpreter.handle_osc (self : Interpreter) (msg : OscMessage) :
    Interpreter × Option Response :=
  let u := scanCtrls (fun c => c.handle_osc msg) self.ctrls
  (⟨u.1⟩, u.2)

/-- `Interpreter::handle_midi`. -/
def Interpreter.handle_midi (self : Interpreter) (msg : List Nat) :
    Interpreter × Option Response :=
  let u := scanCtrls (fun c => c.handle_midi msg) self.ctrls
  (⟨u.1⟩, u.2)

/-! ## Event sequences over a single control -/

/-- One inbound event aimed at a single control logic instance. -/
inductive RelEvent where
  | ctrl (num val : Nat)
  | osc (msg : OscMessage)
  | midi (msg : List Nat)
deriving Repr, DecidableEq

/-- Dispatch one event to a Relative control. -/
def RelativeLogic.handleEvent (self : RelativeLogic) :
    RelEvent → RelativeLogic × Option Response
  | RelEvent.ctrl num val => self.handle_ctrl num val
  | RelEvent.osc msg => self.handle_osc msg
  | RelEvent.midi msg => self.handle_midi msg

/-- Run a sequence of events through a Relative control, keeping the state. -/
def RelativeLogic.runEvents (self : RelativeLogic) :
    List RelEvent → RelativeLogic
  | [] => self
  | e :: es => ((self.handleEvent e).1).runEvents es

/-- A MIDI event whose data byte is in the 7-bit range MIDI guarantees for
data bytes; hardware and OSC events are unrestricted. -/
def RelEvent.midiDataOk : RelEvent → Prop
  | RelEvent.midi [_, _, d2] => d2 ≤ 127
  | _ => True

/-- Run a sequence of hardware events through an OnOff control, collecting
every returned response. -/
def OnOffLogic.runCtrls (self : OnOffLogic) :
    List (Nat × Nat) → OnOffLogic × List (Option Response)
  | [] => (self, [])
  | e :: es =>
    let u := self.handle_ctrl e.1 e.2
    let v := (u.1).runCtrls es
    (v.1, u.2 :: v.2)

/-! ## Mapping expansion (`config.rs`) -/

/-- Drop `pat` from the front of `s`, returning the remainder when `pat`
is a front segment of `s`. -/
def stripFront (pat s : List Char) : Option (List Char) :=
  match pat, s with
  | [], rest => some rest
  | _ :: _, [] => none
  | p :: ps, c :: cs => if p = c then stripFront ps cs else none

/-- Fuelled worker for `strReplace`; the fuel (the length of the subject)
bounds the number of steps, each of which consumes at least one character
when the pattern is nonempty. -/
def replaceFuel (pat rep : List Char) : Nat → List Char → List Char
  | _, [] => []
  | 0, s => s
  | fuel + 1, c :: cs =>
    match stripFront pat (c :: cs) with
    | some rest => rep ++ replaceFuel pat rep fuel rest
    | none => c :: replaceFuel pat rep fuel cs

/-- Rust `str::replace`: replace every non-overlapping occurrence of `pat`
in `s` by `rep`, scanning left to right. Implemented on the character
list so that it evaluates inside the kernel. -/
def strReplace (s pat rep : String) : String :=
  ⟨replaceFuel pat.data rep.data s.data.length s.data⟩

namespace Config

/-- `config.rs` `CtrlKind` (the version in this file has no mode payloads). -/
inductive CtrlKind where
  | onOff
  | eightBit
  | relative
deriving Repr, DecidableEq

/-- `config.rs` `MidiKind`. -/
inductive MidiKind where
  | cc
  | coarseFine
deriving Repr, DecidableEq

/-- `config.rs` `Numbering`. -/
inductive Numbering where
  | single (ctrl_in_sequence : Option (List Nat)) (ctrl_in : Option Nat)
      (ctrl_out : Option Nat) (midi : Option Nat)
  | range (ctrl_in : Option (Nat × Nat)) (ctrl_out : Option (Nat × Nat))
      (midi : Option (Nat × Nat))
deriving Repr, DecidableEq

/-- The loop body of `Numbering::num_alternatives`: fold the present
ranges, requiring all to have the same size `hi - lo + 1`, and fail on a
mismatch. -/
def checkRanges : Option Nat → List (Nat × Nat) → Option Nat
  | acc, [] => acc
  | none, (lo, hi) :: rest => checkRanges (some (hi - lo + 1)) rest
  | some n, (lo, hi) :: rest =>
      if hi - lo + 1 = n then checkRanges (some n) rest else none

/-- `Numbering::num_alternatives`. -/
def Numbering.num_alternatives : Numbering → Option Nat
  | Numbering.single _ _ _ _ => some 1
  | Numbering.range ctrl_in ctrl_out midi =>
      checkRanges none ([ctrl_in, ctrl_out, midi].filterMap id)

/-- `config.rs` `Mapping`. -/
structure Mapping where
  name : String
  numbering : Numbering
  ctrl_kind : CtrlKind
  midi_kind : MidiKind
deriving Repr, DecidableEq

/-- `Mapping::expand_iter`. A `Single` numbering pushes a clone of the
mapping itself; a `Range` numbering produces one mapping per index `i`,
substituting the name placeholder and shifting every present lower bound
by `i`. The `unwrap` panic on inconsistent ranges is modelled as `none`. -/
def Mapping.expand_iter (self : Mapping) : Option (List Mapping) :=
  match self.numbering with
  | Numbering.single _ _ _ _ => some [self]
  | Numbering.range ctrl_in ctrl_out midi =>
      (Numbering.num_alternatives
          (Numbering.range ctrl_in ctrl_out midi)).map fun num =>
        (List.range num).map fun i =>
          { name := strReplace self.name "\x7bi\x7d" (toString i)
            numbering := Numbering.single none (ctrl_in.map fun p => p.1 + i)
              (ctrl_out.map fun p => p.1 + i) (midi.map fun p => p.1 + i)
            ctrl_kind := self.ctrl_kind
            midi_kind := self.midi_kind }

end Config

/-! ## Helper lemmas -/

/-- The scan loop skips instances that decline and stops at the first
instance returning a (possibly empty) response, leaving all later
instances untouched. -/
theorem scanCtrls_first_some (f : CtrlLogic → CtrlLogic × Option Response)
    (pre : List CtrlLogic) (c : CtrlLogic) (rest : List CtrlLogic)
    (r : Response) (hpre : ∀ x ∈ pre, (f x).2 = none) (hc : (f c).2 = some r) :
    scanCtrls f (pre ++ c :: rest) =
      (pre.map (fun x => (f x).1) ++ (f c).1 :: rest, some r) := by
  induction pre with
  | nil => simp [scanCtrls, hc]
  | cons a as ih =>
    have ha := hpre a (by simp)
    have has : ∀ x ∈ as, (f x).2 = none := fun x hx => hpre x (by simp [hx])
    simp [scanCtrls, ha, ih has]

/-! ## Claim theorems -/

/-- The first component of `OnOffLogic::update` is the control with its
state set to `new_state` when remembering, and the unchanged control
otherwise. -/
theorem OnOffLogic.update_fst (l : OnOffLogic) (b rem : Bool) :
    (l.update b rem).1 = if rem then { l with state := b } else l := by
  rw [OnOffLogic.update]
  split <;> rfl

/-- Claim C10: an OnOff control with no configured output control number
declines every inbound OSC and MIDI message (returns no response) and
leaves its stored state unchanged, even for messages whose address or
channel/kind/number would otherwise match. -/
theorem c10_onoff_no_output_declines (l : OnOffLogic)
    (hout : l.ctrl_out_num = none) :
    (∀ msg : OscMessage, l.handle_osc msg = (l, none)) ∧
    (∀ msg : List Nat, l.handle_midi msg = (l, none)) := by
  refine ⟨fun msg => ?_, fun msg => ?_⟩
  · simp [OnOffLogic.handle_osc, hout]
  · simp [OnOffLogic.handle_midi, hout]

/-- A concrete OnOff control without an output number, for witnesses. -/
def onOffNoOut : OnOffLogic :=
  { mode := OnOffMode.toggle, ctrl_in_num := some 1, ctrl_out_num := none,
    midi := some ⟨0, 5, MidiKind.cc⟩, osc_addr := "/a", state := false }

/-- Witness for C10 at a concrete control and concrete matching messages. -/
theorem c10_witness :
    onOffNoOut.ctrl_out_num = none ∧
    onOffNoOut.handle_osc ⟨"/a", [OscType.float 1]⟩ = (onOffNoOut, none) ∧
    onOffNoOut.handle_midi [0xb0, 5, 0x7f] = (onOffNoOut, none) :=
  ⟨rfl, (c10_onoff_no_output_declines onOffNoOut rfl).1 _,
    (c10_onoff_no_output_declines onOffNoOut rfl).2 _⟩

/-- Claim C9: an instance that matches an event but has nothing to emit
returns a present, entirely empty response (an EightBit hi event, a Toggle
release, a repeated unchanged Momentary press), and the engine then stops
scanning, so later instances are never consulted for that event. -/
theorem c9_empty_response_consumes :
    (∀ (l : EightBitLogic) (v : Nat),
       l.handle_ctrl l.ctrl_in_hi_num v =
         ({ l with state := (v, l.state.2) }, some Response.new)) ∧
    (∀ (l : OnOffLogic) (num : Nat), l.mode = OnOffMode.toggle →
       l.ctrl_in_num = some num →
       l.handle_ctrl num 0 = (l, some Response.new)) ∧
    (∀ (l : OnOffLogic) (num v : Nat), l.mode = OnOffMode.momentary →
       l.ctrl_in_num = some num → v ≠ 0 → l.state = true →
       l.handle_ctrl num v = (l, some Response.new)) ∧
    (∀ (c : CtrlLogic) (rest : List CtrlLogic) (num v : Nat),
       (c.handle_ctrl num v).2 = some Response.new →
       Interpreter.handle_ctrl ⟨c :: rest⟩ num v =
         (⟨(c.handle_ctrl num v).1 :: rest⟩, some Response.new)) := by
  refine ⟨fun l v => ?_, fun l num hmode hin => ?_,
    fun l num v hmode hin hv hstate => ?_, fun c rest num v hc => ?_⟩
  · simp [EightBitLogic.handle_ctrl]
  · cases l with
    | mk mode ci co mi oa st =>
      simp only at hmode hin
      subst hmode hin
      simp [OnOffLogic.handle_ctrl, OnOffLogic.update, Response.new]
  · cases l with
    | mk mode ci co mi oa st =>
      simp only at hmode hin hstate
      subst hmode hin hstate
      simp [OnOffLogic.handle_ctrl, OnOffLogic.update, hv, Response.new]
  · simp [Interpreter.handle_ctrl, scanCtrls, hc]

/-- A concrete EightBit control, for witnesses. -/
def eightBitExample : EightBitLogic :=
  { ctrl_in_hi_num := 8, ctrl_in_lo_num := 9,
    midi := some ⟨0, 5, MidiKind.cc⟩, osc_addr := "/fader", state := (0, 0) }

/-- A concrete Momentary OnOff control currently on, for witnesses. -/
def momentaryOn : OnOffLogic :=
  { mode := OnOffMode.momentary, ctrl_in_num := some 1, ctrl_out_num := some 2,
    midi := some ⟨0, 5, MidiKind.cc⟩, osc_addr := "/btn", state := true }

/-- A concrete Toggle OnOff control, for witnesses. -/
def toggleExample : OnOffLogic :=
  { mode := OnOffMode.toggle, ctrl_in_num := some 1, ctrl_out_num := some 2,
    midi := some ⟨0, 5, MidiKind.cc⟩, osc_addr := "/tgl", state := false }

/-- Witness for C9: the three empty-response cases at concrete controls,
and the engine stopping at a concrete two-instance interpreter. -/
theorem c9_witness :
    eightBitExample.handle_ctrl 8 0x40 =
      ({ eightBitExample with state := (0x40, 0) }, some Response.new) ∧
    (toggleExample.mode = OnOffMode.toggle ∧
     toggleExample.ctrl_in_num = some 1 ∧
     toggleExample.handle_ctrl 1 0 = (toggleExample, some Response.new)) ∧
    (momentaryOn.mode = OnOffMode.momentary ∧ momentaryOn.state = true ∧
     momentaryOn.handle_ctrl 1 5 = (momentaryOn, some Response.new)) ∧
    ((CtrlLogic.eightBit eightBitExample).handle_ctrl 8 0x40 |>.2) =
        some Response.new ∧
    Interpreter.handle_ctrl
        ⟨[CtrlLogic.eightBit eightBitExample, CtrlLogic.onOff momentaryOn]⟩ 8 0x40 =
      (⟨[((CtrlLogic.eightBit eightBitExample).handle_ctrl 8 0x40).1,
         CtrlLogic.onOff momentaryOn]⟩, some Response.new) := by
  have h8 : eightBitExample.handle_ctrl 8 0x40 =
      ({ eightBitExample with state := (0x40, 0) }, some Response.new) :=
    c9_empty_response_consumes.1 eightBitExample 0x40
  have ht := c9_empty_response_consumes.2.1 toggleExample 1 rfl rfl
  have hm := c9_empty_response_consumes.2.2.1 momentaryOn 1 5 rfl rfl (by decide) rfl
  have hc : ((CtrlLogic.eightBit eightBitExample).handle_ctrl 8 0x40).2 =
      some Response.new := by
    simp [CtrlLogic.handle_ctrl, h8]
  exact ⟨h8, ⟨rfl, rfl, ht⟩, ⟨rfl, rfl, hm⟩, hc,
    c9_empty_response_consumes.2.2.2 _ _ 8 0x40 hc⟩

/-- Claim C8: each of the three entry points scans the instances in
construction order and returns the first present response, leaving every
later instance unconsulted; hence with two instances on the same input
number only the earlier-constructed one ever produces a response. -/
theorem c8_first_match_wins (pre : List CtrlLogic) (c : CtrlLogic)
    (rest : List CtrlLogic) :
    (∀ (num v : Nat) (r : Response),
       (∀ x ∈ pre, (x.handle_ctrl num v).2 = none) →
       (c.handle_ctrl num v).2 = some r →
       Interpreter.handle_ctrl ⟨pre ++ c :: rest⟩ num v =
         (⟨pre.map (fun x => (x.handle_ctrl num v).1) ++
            (c.handle_ctrl num v).1 :: rest⟩, some r)) ∧
    (∀ (msg : OscMessage) (r : Response),
       (∀ x ∈ pre, (x.handle_osc msg).2 = none) →
       (c.handle_osc msg).2 = some r →
       Interpreter.handle_osc ⟨pre ++ c :: rest⟩ msg =
         (⟨pre.map (fun x => (x.handle_osc msg).1) ++
            (c.handle_osc msg).1 :: rest⟩, some r)) ∧
    (∀ (msg : List Nat) (r : Response),
       (∀ x ∈ pre, (x.handle_midi msg).2 = none) →
       (c.handle_midi msg).2 = some r →
       Interpreter.handle_midi ⟨pre ++ c :: rest⟩ msg =
         (⟨pre.map (fun x => (x.handle_midi msg).1) ++
            (c.handle_midi msg).1 :: rest⟩, some r)) := by
  refine ⟨fun num v r hpre hc => ?_, fun msg r hpre hc => ?_,
    fun msg r hpre hc => ?_⟩
  · simp [Interpreter.handle_ctrl, scanCtrls_first_some _ pre c rest r hpre hc]
  · simp [Interpreter.handle_osc, scanCtrls_first_some _ pre c rest r hpre hc]
  · simp [Interpreter.handle_midi, scanCtrls_first_some _ pre c rest r hpre hc]

/-- Witness for C8: a declining instance first, a matching EightBit
instance second, a third instance after it; the hardware entry point
returns the second instance's response and leaves the third untouched. -/
theorem c8_witness :
    (∀ x ∈ [CtrlLogic.onOff momentaryOn], (x.handle_ctrl 8 0x40).2 = none) ∧
    ((CtrlLogic.eightBit eightBitExample).handle_ctrl 8 0x40).2 =
      some Response.new ∧
    Interpreter.handle_ctrl
        ⟨[CtrlLogic.onOff momentaryOn] ++
          CtrlLogic.eightBit eightBitExample :: [CtrlLogic.onOff toggleExample]⟩
        8 0x40 =
      (⟨[CtrlLogic.onOff momentaryOn].map
          (fun x => (x.handle_ctrl 8 0x40).1) ++
          ((CtrlLogic.eightBit eightBitExample).handle_ctrl 8 0x40).1 ::
            [CtrlLogic.onOff toggleExample]⟩, some Response.new) := by
  have hpre : ∀ x ∈ [CtrlLogic.onOff momentaryOn],
      (CtrlLogic.handle_ctrl x 8 0x40).2 = none := by decide
  have hc : ((CtrlLogic.eightBit eightBitExample).handle_ctrl 8 0x40).2 =
      some Response.new := rfl
  exact ⟨hpre, hc,
    (c8_first_match_wins [CtrlLogic.onOff momentaryOn]
        (CtrlLogic.eightBit eightBitExample)
        [CtrlLogic.onOff toggleExample]).1 8 0x40 Response.new hpre hc⟩

/-- Claim C2: an OnOff control in Toggle mode negates its state on a press
and returns the full representation of the new state; a release leaves the
state unchanged and emits nothing, so any number of consecutive releases
produce zero emitted messages. -/
theorem c2_onoff_toggle (l : OnOffLogic) (num : Nat)
    (hmode : l.mode = OnOffMode.toggle) (hin : l.ctrl_in_num = some num) :
    (∀ v, v ≠ 0 →
      (l.handle_ctrl num v).1.state = !l.state ∧
      (l.handle_ctrl num v).2 = some
        { ctrl := l.ctrl_out_num.map fun o =>
            { data := [o, if !l.state then 0x7f else 0x00] },
          osc := some { addr := l.osc_addr,
                        args := [OscType.float (if !l.state then 1 else 0)] },
          midi := l.midi.map fun midi =>
            match midi.kind with
            | MidiKind.cc =>
                { data := [0xb0 ||| midi.channel, midi.num,
                           if !l.state then 0x7f else 0x00] }
            | MidiKind.noteOnOff =>
                if !l.state then
                  { data := [0x90 ||| midi.channel, midi.num, 0x7f] }
                else
                  { data := [0x80 ||| midi.channel, midi.num, 0x00] } }) ∧
    l.handle_ctrl num 0 = (l, some Response.new) ∧
    (∀ k, l.runCtrls (List.replicate k (num, 0)) =
      (l, List.replicate k (some Response.new))) := by
  obtain ⟨mode, ci, co, mi, oa, st⟩ := l
  simp only at hmode hin
  subst hmode hin
  have hrel : (⟨OnOffMode.toggle, some num, co, mi, oa, st⟩ : OnOffLogic).handle_ctrl
      num 0 = (⟨OnOffMode.toggle, some num, co, mi, oa, st⟩, some Response.new) := by
    simp [OnOffLogic.handle_ctrl, OnOffLogic.update, Response.new]
  refine ⟨fun v hv => ?_, hrel, fun k => ?_⟩
  · constructor
    · simp [OnOffLogic.handle_ctrl, OnOffLogic.update, hv]
    · simp [OnOffLogic.handle_ctrl, OnOffLogic.update, hv]
  · induction k with
    | zero => simp [OnOffLogic.runCtrls]
    | succ n ih =>
      simp only [List.replicate_succ, OnOffLogic.runCtrls, hrel]
      simp [ih]

/-- Witness for C2: a concrete Toggle control; a press flips the state and
emits the full response, a release emits the empty response, three
consecutive releases emit three empty responses. -/
theorem c2_witness :
    toggleExample.mode = OnOffMode.toggle ∧
    toggleExample.ctrl_in_num = some 1 ∧
    (toggleExample.handle_ctrl 1 1).1.state = true ∧
    (toggleExample.handle_ctrl 1 1).2 = some
      { ctrl := some { data := [2, 0x7f] },
        osc := some { addr := "/tgl", args := [OscType.float 1] },
        midi := some { data := [0xb0, 5, 0x7f] } } ∧
    toggleExample.handle_ctrl 1 0 = (toggleExample, some Response.new) ∧
    toggleExample.runCtrls (List.replicate 3 (1, 0)) =
      (toggleExample, List.replicate 3 (some Response.new)) := by
  have h := c2_onoff_toggle toggleExample 1 rfl rfl
  have hp := h.1 1 (by decide)
  refine ⟨rfl, rfl, ?_, ?_, h.2.1, h.2.2 3⟩
  · simpa [toggleExample] using hp.1
  · rw [hp.2]
    norm_num [toggleExample]

/-- Claim C3: an EightBit control stores a hi event into slot 0 with an
empty response; a following lo event stores slot 1 and emits the composite
value `v8 = (hi << 1) | (lo != 0)` as OSC `v8/255` and, when the MIDI kind
is Cc, as a Control-Change triplet carrying `v8 >> 1`, with no
hardware-feedback part. -/
theorem c3_eightbit_assembly (l : EightBitLogic) (vhi vlo : Nat)
    (hne : l.ctrl_in_lo_num ≠ l.ctrl_in_hi_num) (hvhi : vhi ≤ 0x7f) :
    l.handle_ctrl l.ctrl_in_hi_num vhi =
      ({ l with state := (vhi, l.state.2) }, some Response.new) ∧
    ({ l with state := (vhi, l.state.2) } : EightBitLogic).handle_ctrl
        l.ctrl_in_lo_num vlo =
      ({ l with state := (vhi, vlo) }, some
        ⟨none,
         some ⟨l.osc_addr, [OscType.float
           ((((vhi <<< 1) ||| (if vlo ≠ 0 then 1 else 0) : Nat) : ℚ) / 255)]⟩,
         l.midi.bind fun midi =>
           match midi.kind with
           | MidiKind.cc =>
               some ⟨[0xb0 ||| midi.channel, midi.num,
                 ((vhi <<< 1) ||| (if vlo ≠ 0 then 1 else 0)) >>> 1]⟩
           | MidiKind.noteOnOff => none⟩) := by
  obtain ⟨hi, lo, mi, oa, st⟩ := l
  simp only at hne hvhi ⊢
  have hmod : vhi * 2 % 256 = vhi <<< 1 := by
    rw [Nat.shiftLeft_eq, pow_one, Nat.mod_eq_of_lt (by omega)]
  refine ⟨by simp [EightBitLogic.handle_ctrl], ?_⟩
  simp [EightBitLogic.handle_ctrl, hne, hmod]

/-- Witness for C3: the spec's own example, hi = 0x40 then lo = 0x01,
yielding OSC value 0x81/255 and MIDI CC value 0x40. -/
theorem c3_witness :
    eightBitExample.ctrl_in_lo_num ≠ eightBitExample.ctrl_in_hi_num ∧
    (0x40 : Nat) ≤ 0x7f ∧
    eightBitExample.handle_ctrl 8 0x40 =
      ({ eightBitExample with state := (0x40, 0) }, some Response.new) ∧
    ((0x40 <<< 1) ||| (if (0x01 : Nat) ≠ 0 then 1 else 0) : Nat) = 0x81 ∧
    ({ eightBitExample with state := (0x40, 0) } : EightBitLogic).handle_ctrl
        9 0x01 =
      ({ eightBitExample with state := (0x40, 0x01) }, some
        ⟨none,
         some ⟨"/fader", [OscType.float
           ((((0x40 <<< 1) ||| (if (0x01 : Nat) ≠ 0 then 1 else 0) : Nat) : ℚ)
             / 255)]⟩,
         some ⟨[0xb0 ||| 0, 5,
           ((0x40 <<< 1) ||| (if (0x01 : Nat) ≠ 0 then 1 else 0)) >>> 1]⟩⟩) := by
  have h := c3_eightbit_assembly eightBitExample 0x40 0x01 (by decide) (by decide)
  exact ⟨by decide, by decide, h.1, by decide, h.2⟩

/-- Claim C4: for a Relative control in Accumulate mode with a configured
output number, a stored-state change emits hardware feedback exactly when
the quantized LED segment changes, the emitted feedback value is the new
segment, and OSC is emitted on every change regardless. -/
theorem c4_led_segment_feedback (l : RelativeLogic) (o ns : Nat)
    (hout : l.ctrl_out_num = some o) (hch : ns ≠ l.state) :
    ((l.update ns).2.ctrl ≠ none ↔
      RelativeLogic.encoder_led_val ns ≠ RelativeLogic.encoder_led_val l.state) ∧
    (RelativeLogic.encoder_led_val ns ≠ RelativeLogic.encoder_led_val l.state →
      (l.update ns).2.ctrl =
        some { data := [o, RelativeLogic.encoder_led_val ns] }) ∧
    (l.update ns).2.osc = some ⟨l.osc_addr, [OscType.float ((ns : ℚ) / 127)]⟩ := by
  obtain ⟨mode, ci, co, mi, oa, st⟩ := l
  simp only at hout hch ⊢
  subst hout
  by_cases hled :
      RelativeLogic.encoder_led_val ns = RelativeLogic.encoder_led_val st
  · simp [RelativeLogic.update, hch, hled]
  · simp [RelativeLogic.update, hch, hled]

/-- A concrete Relative control in Accumulate mode at state 6. -/
def relAcc6 : RelativeLogic :=
  { mode := RelativeMode.accumulate, ctrl_in_num := some 1,
    ctrl_out_num := some 2, midi := some ⟨0, 5, MidiKind.cc⟩,
    osc_addr := "/enc", state := 6 }

/-- Witness for C4: the transition 6 to 7 emits feedback byte pair [2, 7];
the transition 5 to 6 emits no feedback although OSC is still emitted. -/
theorem c4_witness :
    relAcc6.ctrl_out_num = some 2 ∧ (7 : Nat) ≠ relAcc6.state ∧
    (relAcc6.update 7).2.ctrl = some { data := [2, 7] } ∧
    (({ relAcc6 with state := 5 } : RelativeLogic).update 6).2.ctrl = none ∧
    (({ relAcc6 with state := 5 } : RelativeLogic).update 6).2.osc =
      some { addr := "/enc", args := [OscType.float ((6 : ℚ) / 127)] } := by
  have h7 := c4_led_segment_feedback relAcc6 2 7 rfl (by decide)
  have h6 := c4_led_segment_feedback { relAcc6 with state := 5 } 2 6 rfl (by decide)
  refine ⟨rfl, by decide, h7.2.1 (by decide), ?_, h6.2.2⟩
  have : ¬ ((({ relAcc6 with state := 5 } : RelativeLogic).update 6).2.ctrl ≠ none) := by
    rw [h6.1]
    decide
  exact not_not.mp this

/-- Claim C5: for an OnOff control with a configured output, inbound OSC
and MIDI never produce an OSC or MIDI part; a matching OSC float sets the
state to (value != 0); a matching NoteOnOff MIDI message sets the state on
exactly when it is Note-On with positive velocity; OSC argument 1.0 from
the off state yields feedback bytes [output_number, 0x7F]. -/
theorem c5_onoff_reverse_feedback_only (l : OnOffLogic) (o : Nat)
    (hout : l.ctrl_out_num = some o) :
    (∀ (msg : OscMessage) (r : Response), (l.handle_osc msg).2 = some r →
      r.osc = none ∧ r.midi = none) ∧
    (∀ (msg : List Nat) (r : Response), (l.handle_midi msg).2 = some r →
      r.osc = none ∧ r.midi = none) ∧
    (∀ (v : ℚ) (rest : List OscType),
      ((l.handle_osc ⟨l.osc_addr, OscType.float v :: rest⟩).1).state =
        decide (v ≠ 0)) ∧
    (∀ (spec : MidiSpec) (sb d1 d2 : Nat), l.midi = some spec →
      spec.kind = MidiKind.noteOnOff → (sb &&& 0x0f) = spec.channel →
      (sb &&& 0xf0) = 0x90 ∨ (sb &&& 0xf0) = 0x80 → d1 = spec.num →
      ((l.handle_midi [sb, d1, d2]).1).state =
        ((sb &&& 0xf0 == 0x90) && decide (0 < d2))) ∧
    (l.state = false →
      (l.handle_osc ⟨l.osc_addr, [OscType.float 1]⟩).2 =
        some ⟨some ⟨[o, 0x7f]⟩, none, none⟩) := by
  refine ⟨fun msg r h => ?_, fun msg r h => ?_, fun v rest => ?_,
    fun spec sb d1 d2 hspec hkind hch hst hnum => ?_, fun hoff => ?_⟩
  · simp only [OnOffLogic.handle_osc] at h
    split at h
    · simp at h
    · split at h
      · simp at h
      · split at h
        · simp only [Option.some.injEq] at h
          subst h
          simp [Response.new]
        · simp at h
  · simp only [OnOffLogic.handle_midi] at h
    split at h
    · simp at h
    · split at h
      · simp at h
      · split at h
        · split at h
          · simp at h
          · split at h
            · simp at h
            · simp only [Option.some.injEq] at h
              subst h
              simp [Response.new]
        · simp at h
  · simp [OnOffLogic.handle_osc, hout, OnOffLogic.update_fst]
  · obtain ⟨mode, ci, co, mi, oa, st⟩ := l
    simp only at hout hspec
    subst hout hspec
    obtain ⟨ch, mn, kd⟩ := spec
    simp only at hkind
    subst hkind hnum hch
    rcases hst with hst | hst <;>
      simp [OnOffLogic.handle_midi, OnOffLogic.update_fst, hst]
  · obtain ⟨mode, ci, co, mi, oa, st⟩ := l
    simp only at hout hoff
    subst hout hoff
    norm_num [OnOffLogic.handle_osc, OnOffLogic.update, Response.new]

/-- A concrete Toggle OnOff control bound to NoteOnOff MIDI, for the C5
witness. -/
def onOffNote : OnOffLogic :=
  { mode := OnOffMode.toggle, ctrl_in_num := some 1, ctrl_out_num := some 2,
    midi := some ⟨3, 5, MidiKind.noteOnOff⟩, osc_addr := "/n", state := false }

/-- Witness for C5 at a concrete control: a matching OSC message with
argument 1.0 turns the state on and yields only the feedback pair [2, 0x7F];
a Note-On with velocity 0x40 on channel 3 turns the state on. -/
theorem c5_witness :
    onOffNote.ctrl_out_num = some 2 ∧
    ((onOffNote.handle_osc ⟨"/n", [OscType.float 1]⟩).1).state = decide ((1 : ℚ) ≠ 0) ∧
    ((onOffNote.handle_midi [0x93, 5, 0x40]).1).state =
      ((0x93 &&& 0xf0 == 0x90) && decide (0 < 0x40)) ∧
    (onOffNote.handle_osc ⟨"/n", [OscType.float 1]⟩).2 =
      some ⟨some ⟨[2, 0x7f]⟩, none, none⟩ := by
  have h := c5_onoff_reverse_feedback_only onOffNote 2 rfl
  exact ⟨rfl, h.2.2.1 1 [], h.2.2.2.1 ⟨3, 5, MidiKind.noteOnOff⟩ 0x93 5 0x40
    rfl rfl (by decide) (Or.inl (by decide)) rfl, h.2.2.2.2 rfl⟩

/-- For a 7-bit hardware byte the decoded delta is the claim's formula:
the value itself below 0x40, the value minus 128 from 0x40 up. -/
theorem relDelta_eq_of_le (v : Nat) (hv : v ≤ 0x7f) :
    relDelta v = if v < 0x40 then (v : Int) else (v : Int) - 128 := by
  unfold relDelta toI8 i8WrappingAdd
  split_ifs <;> omega

/-- Saturating addition followed by `min 127` is exactly clamping the
exact sum into [0, 127]. -/
theorem sat_min_eq_clamp (s : Nat) (d : Int) :
    min (satAddSigned s d) 127 = (max 0 (min 127 ((s : Int) + d))).toNat := by
  simp only [satAddSigned]
  split_ifs <;> omega

/-- Claim C1: a Relative control in Accumulate mode decodes a 7-bit byte
as a signed delta, clamps `state + delta` into [0, 127] saturating, emits
the empty response when the state is unchanged, and otherwise emits OSC
`new_state/127` and, with a Cc MIDI binding, a Control-Change triplet
carrying the new state. -/
theorem c1_relative_accumulate (l : RelativeLogic) (num v : Nat)
    (hmode : l.mode = RelativeMode.accumulate)
    (hin : l.ctrl_in_num = some num) (hv : v ≤ 0x7f) :
    ((l.handle_ctrl num v).1).state =
      (max 0 (min 127 ((l.state : Int) +
        (if v < 0x40 then (v : Int) else (v : Int) - 128)))).toNat ∧
    ∃ r, (l.handle_ctrl num v).2 = some r ∧
      (((l.handle_ctrl num v).1).state = l.state → r = Response.new) ∧
      (((l.handle_ctrl num v).1).state ≠ l.state →
        r.osc = some ⟨l.osc_addr, [OscType.float
          ((((l.handle_ctrl num v).1).state : ℚ) / 127)]⟩ ∧
        ∀ ch mn, l.midi = some ⟨ch, mn, MidiKind.cc⟩ →
          r.midi = some ⟨[0xb0 ||| ch, mn, ((l.handle_ctrl num v).1).state]⟩) := by
  obtain ⟨mode, ci, co, mi, oa, st⟩ := l
  simp only at hmode hin ⊢
  subst hmode hin
  rw [← relDelta_eq_of_le v hv, ← sat_min_eq_clamp]
  by_cases hch : min (satAddSigned st (relDelta v)) 127 = st
  · have hst0 : ((RelativeLogic.handle_ctrl ⟨RelativeMode.accumulate, some num,
        co, mi, oa, st⟩ num v).1).state = st := by
      simp [RelativeLogic.handle_ctrl, RelativeLogic.update, hch]
    refine ⟨hst0.trans hch.symm, Response.new, ?_, fun _ => rfl,
      fun hne => absurd hst0 hne⟩
    simp [RelativeLogic.handle_ctrl, RelativeLogic.update, hch]
  · have hst : ((RelativeLogic.handle_ctrl ⟨RelativeMode.accumulate, some num,
        co, mi, oa, st⟩ num v).1).state = min (satAddSigned st (relDelta v)) 127 := by
      simp [RelativeLogic.handle_ctrl, RelativeLogic.update, hch]
    refine ⟨hst,
      (RelativeLogic.update ⟨RelativeMode.accumulate, some num, co, mi, oa, st⟩
        (min (satAddSigned st (relDelta v)) 127)).2,
      ?_, fun h => absurd (hst.symm.trans h) hch, fun _ => ⟨?_, ?_⟩⟩
    · simp [RelativeLogic.handle_ctrl, RelativeLogic.update, hch]
    · rw [hst]
      simp [RelativeLogic.update, hch]
    · intro ch mn hmi
      subst hmi
      rw [hst]
      simp [RelativeLogic.update, hch]

/-- Witness for C1: the control at state 6 receives raw byte 3 (delta +3)
on input number 1 and moves to state 9, with the claimed response. -/
theorem c1_witness :
    relAcc6.mode = RelativeMode.accumulate ∧ relAcc6.ctrl_in_num = some 1 ∧
    (3 : Nat) ≤ 0x7f ∧ ((relAcc6.handle_ctrl 1 3).1).state = 9 ∧
    (((relAcc6.handle_ctrl 1 3).1).state =
      (max 0 (min 127 ((relAcc6.state : Int) +
        (if (3 : Nat) < 0x40 then ((3 : Nat) : Int)
         else ((3 : Nat) : Int) - 128)))).toNat ∧
     ∃ r, (relAcc6.handle_ctrl 1 3).2 = some r ∧
       (((relAcc6.handle_ctrl 1 3).1).state = relAcc6.state →
         r = Response.new) ∧
       (((relAcc6.handle_ctrl 1 3).1).state ≠ relAcc6.state →
         r.osc = some ⟨relAcc6.osc_addr, [OscType.float
           ((((relAcc6.handle_ctrl 1 3).1).state : ℚ) / 127)]⟩ ∧
         ∀ ch mn, relAcc6.midi = some ⟨ch, mn, MidiKind.cc⟩ →
           r.midi = some ⟨[0xb0 ||| ch, mn,
             ((relAcc6.handle_ctrl 1 3).1).state]⟩)) :=
  ⟨rfl, rfl, by decide, by decide,
    c1_relative_accumulate relAcc6 1 3 rfl rfl (by decide)⟩

/-- The state reached by each handler stays in [0, 127] provided the
control starts there and any matching MIDI message carries a 7-bit data
byte. -/
theorem relative_handleEvent_state_le (l : RelativeLogic) (e : RelEvent)
    (hst : l.state ≤ 127) (he : e.midiDataOk) :
    ((l.handleEvent e).1).state ≤ 127 := by
  obtain ⟨mode, ci, co, mi, oa, st⟩ := l
  simp only at hst
  cases e with
  | ctrl num val =>
    rcases ci with _ | n
    · simpa [RelativeLogic.handleEvent, RelativeLogic.handle_ctrl] using hst
    · by_cases hn : num = n
      · subst hn
        cases mode with
        | raw =>
          simpa [RelativeLogic.handleEvent, RelativeLogic.handle_ctrl] using hst
        | accumulate =>
          simp [RelativeLogic.handleEvent, RelativeLogic.handle_ctrl,
            RelativeLogic.update]
          by_cases hc : min (satAddSigned st (relDelta val)) 127 = st <;>
            simp [hc] <;> omega
      · simpa [RelativeLogic.handleEvent, RelativeLogic.handle_ctrl, hn]
          using hst
  | osc msg =>
    rcases co with _ | o
    · simpa [RelativeLogic.handleEvent, RelativeLogic.handle_osc] using hst
    · by_cases ha : msg.addr = oa
      · rcases msg with ⟨addr, args⟩
        rcases args with _ | ⟨a, rest⟩
        · simpa [RelativeLogic.handleEvent, RelativeLogic.handle_osc] using hst
        · rcases a with v | _
          · have h7 : float_to_7bit v ≤ 127 := by
              unfold float_to_7bit
              rw [Int.toNat_le]
              rw [round_eq]
              have hle : min (max v 0) 1 * 127 + 1 / 2 ≤ 127 + 1 / 2 := by
                have hm : min (max v 0) 1 ≤ 1 := min_le_right _ _
                nlinarith
              calc ⌊min (max v 0) 1 * 127 + 1 / 2⌋ ≤ ⌊(127 : ℚ) + 1 / 2⌋ :=
                    Int.floor_le_floor hle
                _ = 127 := by
                    apply Int.floor_eq_iff.mpr
                    constructor <;> norm_num
            simp only at ha
            subst ha
            simp [RelativeLogic.handleEvent, RelativeLogic.handle_osc,
              RelativeLogic.update]
            by_cases hc : float_to_7bit v = st <;> simp [hc] <;> omega
          · simpa [RelativeLogic.handleEvent, RelativeLogic.handle_osc]
              using hst
      · simpa [RelativeLogic.handleEvent, RelativeLogic.handle_osc, ha]
          using hst
  | midi msg =>
    rcases co with _ | o
    · simpa [RelativeLogic.handleEvent, RelativeLogic.handle_midi] using hst
    · rcases mi with _ | spec
      · simpa [RelativeLogic.handleEvent, RelativeLogic.handle_midi] using hst
      · rcases msg with _ | ⟨b0, _ | ⟨b1, _ | ⟨b2, _ | _⟩⟩⟩ <;>
          try simpa [RelativeLogic.handleEvent, RelativeLogic.handle_midi]
            using hst
        simp only [RelEvent.midiDataOk] at he
        by_cases h1 : (b0 &&& 0x0f) = spec.channel
        case neg =>
          simpa [RelativeLogic.handleEvent, RelativeLogic.handle_midi, h1]
            using hst
        case pos =>
          by_cases h2 : (b0 &&& 0xf0) = 0xb0
          case neg =>
            simpa [RelativeLogic.handleEvent, RelativeLogic.handle_midi,
              h1, h2] using hst
          case pos =>
            by_cases h3 : b1 = spec.num
            case neg =>
              simpa [RelativeLogic.handleEvent, RelativeLogic.handle_midi,
                h1, h2, h3] using hst
            case pos =>
              simp [RelativeLogic.handleEvent, RelativeLogic.handle_midi,
                h1, h2, h3, RelativeLogic.update]
              by_cases hc : b2 = st <;> simp [hc] <;> omega

/-- A concrete Relative control in Accumulate mode at the initial state 0. -/
def relAcc0 : RelativeLogic :=
  { mode := RelativeMode.accumulate, ctrl_in_num := some 1,
    ctrl_out_num := some 2, midi := some ⟨0, 5, MidiKind.cc⟩,
    osc_addr := "/enc", state := 0 }

/-- Counterexample to C6 as stated: from the initial state 0, a single
inbound MIDI message whose data byte is 200 (accepted by the code, which
never range-checks it) drives the stored state to 200, outside 0..127. -/
theorem c6_counterexample :
    relAcc0.mode = RelativeMode.accumulate ∧ relAcc0.state = 0 ∧
    (relAcc0.runEvents [RelEvent.midi [0xb0, 5, 200]]).state = 200 ∧
    ¬ ((relAcc0.runEvents [RelEvent.midi [0xb0, 5, 200]]).state ≤ 127) := by
  refine ⟨rfl, rfl, ?_, ?_⟩ <;> decide

/-- Claim C6 (amended): for a Relative control in Accumulate mode whose
state starts in 0..127, the state stays in 0..127 under every sequence of
hardware, OSC and MIDI events in which each MIDI message carries a 7-bit
data byte; an out-of-range MIDI data byte can exceed 127. -/
theorem c6_amended_state_bounded (l : RelativeLogic) (events : List RelEvent)
    (_hmode : l.mode = RelativeMode.accumulate) (hst : l.state ≤ 127)
    (hvalid : ∀ e ∈ events, e.midiDataOk) :
    (l.runEvents events).state ≤ 127 := by
  clear _hmode
  induction events generalizing l with
  | nil => simpa [RelativeLogic.runEvents] using hst
  | cons e es ih =>
    have he := hvalid e (by simp)
    have hes : ∀ x ∈ es, RelEvent.midiDataOk x := fun x hx =>
      hvalid x (by simp [hx])
    have hstep := relative_handleEvent_state_le l e hst he
    simpa [RelativeLogic.runEvents] using ih _ hstep hes

/-- Witness for C6 (amended): from state 0, a positive delta, a valid MIDI
Control-Change and an OSC message leave the state within 0..127. -/
theorem c6_witness :
    relAcc0.mode = RelativeMode.accumulate ∧ relAcc0.state ≤ 127 ∧
    (∀ e ∈ [RelEvent.ctrl 1 0x3f, RelEvent.midi [0xb0, 5, 100],
        RelEvent.osc ⟨"/enc", [OscType.float 1]⟩], e.midiDataOk) ∧
    (relAcc0.runEvents [RelEvent.ctrl 1 0x3f, RelEvent.midi [0xb0, 5, 100],
        RelEvent.osc ⟨"/enc", [OscType.float 1]⟩]).state ≤ 127 := by
  have hv : ∀ e ∈ [RelEvent.ctrl 1 0x3f, RelEvent.midi [0xb0, 5, 100],
      RelEvent.osc ⟨"/enc", [OscType.float 1]⟩], e.midiDataOk := by
    intro e hmem
    simp only [List.mem_cons, List.not_mem_nil, or_false] at hmem
    rcases hmem with rfl | rfl | rfl <;> simp [RelEvent.midiDataOk]
  exact ⟨rfl, by decide, hv,
    c6_amended_state_bounded relAcc0 _ rfl (by decide) hv⟩

/-- A concrete Single-numbered mapping whose name uses the placeholder. -/
def c7single : Config.Mapping :=
  { name := "x\x7bi\x7d",
    numbering := Config.Numbering.single none (some 1) (some 2) (some 3),
    ctrl_kind := Config.CtrlKind.onOff, midi_kind := Config.MidiKind.cc }

/-- Counterexample to C7 as stated: expanding a Single numbering returns
the mapping verbatim, its name still containing the placeholder, not the
index-0 substitution the claim describes. -/
theorem c7_counterexample :
    c7single.expand_iter = some [c7single] ∧
    strReplace c7single.name "\x7bi\x7d" (toString 0) = "x0" ∧
    c7single.name ≠ "x0" := by
  refine ⟨rfl, ?_, ?_⟩ <;> decide

/-- Claim C7 (amended): expansion of a Single numbering yields exactly the
mapping itself, placeholder unsubstituted; a Range numbering spanning N
indices yields N mappings in ascending index order whose i-th element
shifts every present lower bound by i and substitutes the placeholder by
i's decimal text, preserving the control and MIDI kinds. -/
theorem c7_amended_expand (m : Config.Mapping) :
    (∀ a b c d, m.numbering = Config.Numbering.single a b c d →
      m.expand_iter = some [m]) ∧
    (∀ ci co mi N, m.numbering = Config.Numbering.range ci co mi →
      Config.Numbering.num_alternatives
        (Config.Numbering.range ci co mi) = some N →
      ∃ ms, m.expand_iter = some ms ∧ ms.length = N ∧
        ∀ i, ∀ h : i < ms.length,
          (ms.get ⟨i, h⟩).name = strReplace m.name "\x7bi\x7d" (toString i) ∧
          (ms.get ⟨i, h⟩).numbering = Config.Numbering.single none
            (ci.map fun p => p.1 + i) (co.map fun p => p.1 + i)
            (mi.map fun p => p.1 + i) ∧
          (ms.get ⟨i, h⟩).ctrl_kind = m.ctrl_kind ∧
          (ms.get ⟨i, h⟩).midi_kind = m.midi_kind) := by
  constructor
  · intro a b c d hn
    obtain ⟨name, numbering, ck, mk⟩ := m
    simp only at hn
    subst hn
    rfl
  · intro ci co mi N hn hN
    obtain ⟨name, numbering, ck, mk⟩ := m
    simp only at hn
    subst hn
    refine ⟨(List.range N).map fun i =>
      ⟨strReplace name "\x7bi\x7d" (toString i),
       Config.Numbering.single none (ci.map fun p => p.1 + i)
         (co.map fun p => p.1 + i) (mi.map fun p => p.1 + i), ck, mk⟩,
      ?_, by simp, ?_⟩
    · simp [Config.Mapping.expand_iter, hN]
    · intro i h
      simp

/-- A concrete Range mapping spanning three indices with consistent
input, output and MIDI ranges. -/
def c7range : Config.Mapping :=
  { name := "knob\x7bi\x7d",
    numbering := Config.Numbering.range (some (11, 13)) (some (21, 23))
      (some (1, 3)),
    ctrl_kind := Config.CtrlKind.relative, midi_kind := Config.MidiKind.cc }

/-- Witness for C7 (amended): the Single mapping expands to itself; the
three-index Range expands to exactly the three shifted, renamed mappings. -/
theorem c7_witness :
    c7single.numbering =
      Config.Numbering.single none (some 1) (some 2) (some 3) ∧
    c7single.expand_iter = some [c7single] ∧
    c7range.numbering = Config.Numbering.range (some (11, 13)) (some (21, 23))
      (some (1, 3)) ∧
    Config.Numbering.num_alternatives (Config.Numbering.range (some (11, 13))
      (some (21, 23)) (some (1, 3))) = some 3 ∧
    (∃ ms, c7range.expand_iter = some ms ∧ ms.length = 3 ∧
      ∀ i, ∀ h : i < ms.length,
        (ms.get ⟨i, h⟩).name = strReplace c7range.name "\x7bi\x7d" (toString i) ∧
        (ms.get ⟨i, h⟩).numbering = Config.Numbering.single none
          ((some (11, 13)).map fun p => p.1 + i)
          ((some (21, 23)).map fun p => p.1 + i)
          ((some (1, 3)).map fun p => p.1 + i) ∧
        (ms.get ⟨i, h⟩).ctrl_kind = c7range.ctrl_kind ∧
        (ms.get ⟨i, h⟩).midi_kind = c7range.midi_kind) ∧
    (c7range.expand_iter).map (fun ms => ms.map Config.Mapping.name) =
      some ["knob0", "knob1", "knob2"] :=
  ⟨rfl, (c7_amended_expand c7single).1 none (some 1) (some 2) (some 3) rfl,
   rfl, by decide,
   (c7_amended_expand c7range).2 (some (11, 13)) (some (21, 23)) (some (1, 3))
     3 rfl (by decide),
   by decide⟩
